import Mathlib

/-!
Verification development for the Component Replacement Dashboard
(`src/app.py`).  The Python/pandas core is shallowly embedded:

* a cell of the loaded spreadsheet is either null (`NaN`) or carries the
  string form of its value (the source immediately turns every value it
  uses into a string via `str(...)`, so cells are modelled by their
  string rendering);
* a dataframe is a list of column names together with rows that are
  lists of cells aligned positionally with the columns;
* CPython `int(...)` on strings is modelled on ASCII decimal literals
  (surrounding whitespace, an optional sign, then a nonempty digit run);
  underscore grouping and non-ASCII digits are not modelled;
* `pd.to_numeric(..., errors='coerce')` is modelled on ASCII decimal
  literals with an optional fractional part, yielding exact rationals;
  exponent notation and inf/nan literals are not modelled;
* pandas exceptions that the source swallows with `try/except` are
  modelled by `Option` results and the corresponding fallback values.
-/

namespace Dashboard

/-- Strings are modelled as lists of characters. -/
abbrev Str := List Char

/-- A spreadsheet cell: null (pandas `NaN`/`None`) or the string form of
its value. -/
inductive Cell where
  | null : Cell
  | str : Str → Cell
deriving DecidableEq, Repr

/-- Characters treated as whitespace by Python `str.strip()` (ASCII
whitespace subset). -/
def isSpaceChar (c : Char) : Bool :=
  c = ' ' || c = '\t' || c = '\n' || c = '\r' || c = '\x0b' || c = '\x0c'

/-- Python `str.strip()`: drop whitespace from both ends. -/
def pyStrip (s : Str) : Str :=
  ((s.dropWhile isSpaceChar).reverse.dropWhile isSpaceChar).reverse

/-- Decimal digit value of a character, `none` for non-digits. -/
def charDigit? (c : Char) : Option Nat :=
  if '0' ≤ c ∧ c ≤ '9' then some (c.toNat - 48) else none

/-- One step of the left-to-right digit fold; any non-digit makes the
whole parse fail. -/
def digitStep (acc : Option Nat) (c : Char) : Option Nat :=
  match acc, charDigit? c with
  | some a, some d => some (a * 10 + d)
  | _, _ => none

/-- Fold a digit run left-to-right into a number. -/
def parseDigits (s : Str) : Option Nat :=
  s.foldl digitStep (some 0)

/-- A nonempty all-digit run parsed as a natural number. -/
def parseNat (s : Str) : Option Nat :=
  if s.isEmpty then none else parseDigits s

/-- CPython `int(str)` on ASCII decimal literals: strip whitespace,
optional single sign, nonempty digit run. -/
def pyInt? (s : Str) : Option Int :=
  match pyStrip s with
  | [] => none
  | c :: rest =>
    if c = '-' then (parseNat rest).map (fun n => -(n : Int))
    else if c = '+' then (parseNat rest).map (fun n => (n : Int))
    else (parseNat (c :: rest)).map (fun n => (n : Int))

/-- The character of a decimal digit. -/
def decChar (d : Nat) : Char := Char.ofNat (48 + d)

/-- Digit-string worker, structurally recursive on a fuel bound that
always suffices when `n ≤ fuel`. -/
def natToDigitsGo : Nat → Nat → Str
  | 0, n => [decChar n]
  | fuel + 1, n =>
    if n < 10 then [decChar n]
    else natToDigitsGo fuel (n / 10) ++ [decChar (n % 10)]

/-- Decimal digit string of a natural number (most significant first),
as produced by Python `str(...)` on a non-negative int. -/
def natToDigits (n : Nat) : Str := natToDigitsGo n n

/-- Python `str(...)` on an int: optional minus sign then digits. -/
def intToStr (n : Int) : Str :=
  if n < 0 then '-' :: natToDigits n.natAbs else natToDigits n.natAbs

/-- `clean_equipment_code` from `src/app.py`: null stays null; otherwise
remove all commas, strip whitespace, and if the result parses as an int
return its canonical string, else return the original string stripped of
surrounding whitespace only. -/
def clean_equipment_code (code : Cell) : Option Str :=
  match code with
  | Cell.null => none
  | Cell.str s =>
    match pyInt? (pyStrip (s.filter (· ≠ ','))) with
    | some n => some (intToStr n)
    | none => some (pyStrip s)

/-- Python `str.split(':')`: split on every colon, keeping empty parts
(`"".split(':') = [""]`). -/
def splitColon : Str → List Str
  | [] => [[]]
  | c :: rest =>
    if c = ':' then [] :: splitColon rest
    else
      match splitColon rest with
      | [] => [[c]]
      | p :: ps => (c :: p) :: ps

/-- `time_str_to_seconds` from `src/app.py`: null gives 0; a string with
exactly three colon-separated int-parseable parts gives
`h*3600 + m*60 + s`; anything else gives 0. -/
def time_str_to_seconds (c : Cell) : Int :=
  match c with
  | Cell.null => 0
  | Cell.str s =>
    match splitColon s with
    | [a, b, d] =>
      match pyInt? a, pyInt? b, pyInt? d with
      | some h, some m, some sec => h * 3600 + m * 60 + sec
      | _, _, _ => 0
    | _ => 0

/-- Python `f"{n:02d}"`: zero-pad to width two (the sign counts toward
the width, so negative values are never padded at width two). -/
def fmt02 (n : Int) : Str :=
  if 0 ≤ n ∧ n < 10 then '0' :: natToDigits n.natAbs else intToStr n

/-- `seconds_to_time_str` from `src/app.py`: Python `//` and `%` are
floor division and floor remainder, i.e. `Int.fdiv`/`Int.fmod`. -/
def seconds_to_time_str (seconds : Int) : Str :=
  fmt02 (seconds.fdiv 3600) ++ ':' ::
    (fmt02 ((seconds.fmod 3600).fdiv 60) ++ ':' :: fmt02 (seconds.fmod 60))

/-- `time_str_to_hours` from `src/app.py` divides the seconds by 3600;
modelled exactly over the rationals. -/
def time_str_to_hours (c : Cell) : ℚ :=
  (time_str_to_seconds c : ℚ) / 3600

/-- A loaded sheet: column names plus rows of cells aligned positionally
with the column list. -/
structure DataFrame where
  cols : List Str
  rows : List (List Cell)
deriving DecidableEq, Repr

/-- Index of the first column with the given name (`df[name]` looks the
label up; a missing label raises `KeyError`, modelled by `none`). -/
def colIdx? (df : DataFrame) (name : Str) : Option Nat :=
  df.cols.findIdx? (· = name)

/-- Cell of a row at a column index (rows are aligned with `cols`, so
the default is never hit on well-formed frames). -/
def rowCell (r : List Cell) (i : Nat) : Cell :=
  r.getD i Cell.null

/-- Elementwise pandas `series == value` against a Python value that is
a string or `None`: null cells and `None` compare unequal to
everything. -/
def cellMatch (c : Cell) (v : Option Str) : Bool :=
  match c, v with
  | Cell.str s, some t => s = t
  | _, _ => false

/-- Elementwise pandas `series.isin(values)`: null cells are in no
list. -/
def cellIn (c : Cell) (vs : List Str) : Bool :=
  match c with
  | Cell.null => false
  | Cell.str s => vs.contains s

/-- The string carried by a non-null cell. -/
def cellStr? (c : Cell) : Option Str :=
  match c with
  | Cell.null => none
  | Cell.str s => some s

/-- pandas `series.dropna()` followed by reading the remaining values as
strings (the source wraps every survivor in `str(...)`, the identity on
our string cells). -/
def dropNulls (l : List Cell) : List Str :=
  l.filterMap cellStr?

/-- Worker for `uniqueFirst`: keep the first occurrence of each value,
skipping values already seen. -/
def uniqueFirstAux (seen : List Str) : List Str → List Str
  | [] => []
  | x :: xs =>
    if x ∈ seen then uniqueFirstAux seen xs
    else x :: uniqueFirstAux (x :: seen) xs

/-- numpy/pandas `unique()` on a series: distinct values in order of
first appearance. -/
def uniqueFirst (l : List Str) : List Str := uniqueFirstAux [] l

/-- Python `sorted(...)` on a list of strings: ascending lexicographic
order on code points (the `List Char` lexicographic linear order). -/
def pySorted (l : List Str) : List Str :=
  l.insertionSort (· ≤ ·)

/-- Column name `Equipment Code`. -/
def equipmentCodeCol : Str := "Equipment Code".data

/-- Column name `Type`. -/
def typeCol : Str := "Type".data

/-- Column name `Module`. -/
def moduleCol : Str := "Module".data

/-- Column name `Components`. -/
def componentsCol : Str := "Components".data

/-- `get_equipment_codes` from `src/app.py`: sorted distinct non-null
codes; any exception (missing column) yields `[]`. -/
def get_equipment_codes (df : Option DataFrame) : List Str :=
  match df with
  | none => []
  | some df =>
    match colIdx? df equipmentCodeCol with
    | none => []
    | some i => pySorted (uniqueFirst (dropNulls (df.rows.map (rowCell · i))))

/-- `get_type_for_equipment` from `src/app.py`: first distinct non-null
`Type` among rows matching the code; `None` when absent or on any
exception. -/
def get_type_for_equipment (df : Option DataFrame) (code : Option Str) :
    Option Str :=
  match df, code with
  | some df, some code =>
    match colIdx? df equipmentCodeCol, colIdx? df typeCol with
    | some i, some j =>
      (uniqueFirst (dropNulls
        ((df.rows.filter (fun r => cellMatch (rowCell r i) (some code))).map
          (rowCell · j)))).head?
    | _, _ => none
  | _, _ => none

/-- `get_modules` from `src/app.py`: sorted distinct non-null modules of
the rows matching the code; `[]` on any exception. -/
def get_modules (df : Option DataFrame) (code : Option Str) : List Str :=
  match df, code with
  | some df, some code =>
    match colIdx? df equipmentCodeCol, colIdx? df moduleCol with
    | some i, some j =>
      pySorted (uniqueFirst (dropNulls
        ((df.rows.filter (fun r => cellMatch (rowCell r i) (some code))).map
          (rowCell · j))))
    | _, _ => []
  | _, _ => []

/-- `get_components` from `src/app.py`: sorted distinct non-null
components of the rows matching code and module; `[]` on any
exception. -/
def get_components (df : Option DataFrame) (code module : Option Str) :
    List Str :=
  match df, code, module with
  | some df, some code, some module =>
    match colIdx? df equipmentCodeCol, colIdx? df moduleCol,
        colIdx? df componentsCol with
    | some i, some j, some k =>
      pySorted (uniqueFirst (dropNulls
        ((df.rows.filter (fun r =>
            cellMatch (rowCell r i) (some code) &&
            cellMatch (rowCell r j) (some module))).map
          (rowCell · k))))
    | _, _, _ => []
  | _, _, _ => []

/-- `filter_data` from `src/app.py`: filter by code, then module, then
-- when the components list is non-empty -- by membership of the
component; `None` on any exception (missing column). -/
def filter_data (df : Option DataFrame) (code module : Option Str)
    (components : List Str) : Option DataFrame :=
  match df with
  | none => none
  | some df =>
    match colIdx? df equipmentCodeCol, colIdx? df moduleCol with
    | some i, some j =>
      let r2 :=
        (df.rows.filter (fun r => cellMatch (rowCell r i) code)).filter
          (fun r => cellMatch (rowCell r j) module)
      if components.isEmpty then some ⟨df.cols, r2⟩
      else
        match colIdx? df componentsCol with
        | some k =>
          some ⟨df.cols, r2.filter (fun r => cellIn (rowCell r k) components)⟩
        | none => none
    | _, _ => none

/-- Python `sub in s` on strings: `sub` occurs contiguously in `s`. -/
def strContainsSub (s sub : Str) : Bool :=
  (List.range (s.length + 1)).any (fun i => sub.isPrefixOf (s.drop i))

/-- Python `str.lower()` restricted to ASCII letters. -/
def lowerStr (s : Str) : Str := s.map Char.toLower

/-- The source's loose column match for the total-duration column: the
lowercased name contains both `total` and `time`. -/
def isTotalTimeName (name : Str) : Bool :=
  strContainsSub (lowerStr name) "total".data &&
    strContainsSub (lowerStr name) "time".data

/-- The source's loose column match for the crew-size column: the
lowercased name contains both `man` and `power`. -/
def isManpowerName (name : Str) : Bool :=
  strContainsSub (lowerStr name) "man".data &&
    strContainsSub (lowerStr name) "power".data

/-- Python `str.split('.')` (same shape as `splitColon`). -/
def splitDot : Str → List Str
  | [] => [[]]
  | c :: rest =>
    if c = '.' then [] :: splitDot rest
    else
      match splitDot rest with
      | [] => [[c]]
      | p :: ps => (c :: p) :: ps

/-- Digit run parsed as a natural number, with the empty run reading as
zero (used for the parts around a decimal point). -/
def parseDigitsOrEmpty (s : Str) : Option Nat :=
  parseDigits s

/-- Unsigned decimal literal with an optional fractional part, as an
exact rational: `12`, `12.5`, `12.`, `.5`.  A lone `.` or any non-digit
fails. -/
def parseDecimal (s : Str) : Option ℚ :=
  match splitDot s with
  | [a] => (parseNat a).map (fun n => (n : ℚ))
  | [a, b] =>
    if a.isEmpty && b.isEmpty then none
    else
      match parseDigitsOrEmpty a, parseDigitsOrEmpty b with
      | some n, some f => some ((n : ℚ) + (f : ℚ) / (10 : ℚ) ^ b.length)
      | _, _ => none
  | _ => none

/-- `pd.to_numeric(cell, errors='coerce')` on our cells: null coerces to
NaN (`none`); a string is stripped, an optional sign read, and the rest
parsed as a decimal literal; failures coerce to NaN (`none`). -/
def pyNumeric? (c : Cell) : Option ℚ :=
  match c with
  | Cell.null => none
  | Cell.str s =>
    match pyStrip s with
    | [] => none
    | c :: rest =>
      if c = '-' then (parseDecimal rest).map (fun q => -q)
      else if c = '+' then parseDecimal rest
      else parseDecimal (c :: rest)

/-- The statistics record built by `calculate_stats`. -/
structure Stats where
  records : Nat
  total_time : Int
  avg_manpower : ℚ
deriving DecidableEq, Repr

/-- `calculate_stats` from `src/app.py`: zeros for `None`/empty frames;
otherwise the row count, the sum of parsed durations of the first
column whose lowercased name contains `total` and `time`, and the mean
of the numeric-parseable values of the first column whose lowercased
name contains `man` and `power` (zero when the column is absent or has
no numeric values). -/
def calculate_stats (df : Option DataFrame) : Stats :=
  match df with
  | none => ⟨0, 0, 0⟩
  | some df =>
    if df.rows.isEmpty then ⟨0, 0, 0⟩
    else
      let total_time :=
        match df.cols.findIdx? isTotalTimeName with
        | none => (0 : Int)
        | some i => ((df.rows.map (rowCell · i)).map time_str_to_seconds).sum
      let avg_manpower :=
        match df.cols.findIdx? isManpowerName with
        | none => (0 : ℚ)
        | some i =>
          let vals := (df.rows.map (rowCell · i)).filterMap pyNumeric?
          if vals.length > 0 then vals.sum / (vals.length : ℚ) else 0
      ⟨df.rows.length, total_time, avg_manpower⟩

/-- pandas `series.fillna(method='ffill')` with a running last-seen
non-null value. -/
def ffillFrom (last : Option Str) : List Cell → List Cell
  | [] => []
  | Cell.null :: rest =>
    (match last with
     | some v => Cell.str v
     | none => Cell.null) :: ffillFrom last rest
  | Cell.str s :: rest => Cell.str s :: ffillFrom (some s) rest

/-- Forward-fill a column: propagate the last non-null value downward
through row order. -/
def ffill (l : List Cell) : List Cell := ffillFrom none l

/-- `df['Equipment Code'].apply(clean_equipment_code)` on one cell: a
cleaned string survives as a string cell, a null stays null. -/
def cleanCell (c : Cell) : Cell :=
  match clean_equipment_code c with
  | none => Cell.null
  | some s => Cell.str s

/-- The `Equipment Code` column treatment in `load_sheet_data`
(`src/app.py` lines 237-243): clean every code, then forward-fill the
nulls left by originally-null cells. -/
def normalize_codes (col : List Cell) : List Cell :=
  ffill (col.map cleanCell)

/-! ### Character and digit-string lemmas -/

theorem decChar_bounds {d : Nat} (h : d < 10) :
    '0' ≤ decChar d ∧ decChar d ≤ '9' := by
  interval_cases d <;> exact ⟨by decide, by decide⟩

theorem charDigit?_decChar {d : Nat} (h : d < 10) :
    charDigit? (decChar d) = some d := by
  interval_cases d <;> decide

theorem digit_not_space {c : Char} (h1 : '0' ≤ c) : isSpaceChar c = false := by
  unfold isSpaceChar
  simp only [Bool.or_eq_false_iff, decide_eq_false_iff_not]
  refine ⟨⟨⟨⟨⟨?_, ?_⟩, ?_⟩, ?_⟩, ?_⟩, ?_⟩ <;>
    (intro hc; subst hc; exact absurd h1 (by decide))

theorem digit_ne_minus {c : Char} (h1 : '0' ≤ c) : c ≠ '-' := by
  intro hc; subst hc; exact absurd h1 (by decide)

theorem digit_ne_plus {c : Char} (h1 : '0' ≤ c) : c ≠ '+' := by
  intro hc; subst hc; exact absurd h1 (by decide)

theorem digit_ne_colon {c : Char} (h2 : c ≤ '9') : c ≠ ':' := by
  intro hc; subst hc; exact absurd h2 (by decide)

theorem natToDigitsGo_lt10 (fuel n : Nat) (h : n < 10) :
    natToDigitsGo fuel n = [decChar n] := by
  cases fuel with
  | zero => rfl
  | succ f => simp only [natToDigitsGo]; rw [if_pos h]

theorem natToDigitsGo_fuel : ∀ fuel n : Nat, n ≤ fuel →
    natToDigitsGo fuel n = natToDigitsGo n n := by
  intro fuel
  induction fuel using Nat.strong_induction_on with
  | _ fuel ih =>
    intro n hn
    by_cases h10 : n < 10
    · rw [natToDigitsGo_lt10 _ _ h10, natToDigitsGo_lt10 _ _ h10]
    · obtain ⟨f, rfl⟩ : ∃ f, fuel = f + 1 := ⟨fuel - 1, by omega⟩
      obtain ⟨m, rfl⟩ : ∃ m, n = m + 1 := ⟨n - 1, by omega⟩
      simp only [natToDigitsGo]
      rw [if_neg h10, if_neg h10]
      congr 1
      rw [ih f (by omega) ((m + 1) / 10) (by omega),
        ih m (by omega) ((m + 1) / 10) (by omega)]

theorem natToDigits_eq (n : Nat) : natToDigits n =
    if n < 10 then [decChar n]
    else natToDigits (n / 10) ++ [decChar (n % 10)] := by
  by_cases h10 : n < 10
  · rw [if_pos h10, natToDigits, natToDigitsGo_lt10 _ _ h10]
  · rw [if_neg h10]
    obtain ⟨m, rfl⟩ : ∃ m, n = m + 1 := ⟨n - 1, by omega⟩
    rw [natToDigits]
    simp only [natToDigitsGo]
    rw [if_neg h10]
    congr 1
    exact natToDigitsGo_fuel m ((m + 1) / 10) (by omega)

theorem natToDigits_ne_nil (n : Nat) : natToDigits n ≠ [] := by
  rw [natToDigits_eq]
  split <;> simp

theorem natToDigits_bounds (n : Nat) :
    ∀ c ∈ natToDigits n, '0' ≤ c ∧ c ≤ '9' := by
  induction n using Nat.strong_induction_on with
  | _ n ih =>
    intro c hc
    rw [natToDigits_eq] at hc
    by_cases h : n < 10
    · rw [if_pos h] at hc
      rcases List.mem_singleton.mp hc with rfl
      exact decChar_bounds h
    · rw [if_neg h] at hc
      rcases List.mem_append.mp hc with h1 | h2
      · exact ih (n / 10) (by omega) c h1
      · rcases List.mem_singleton.mp h2 with rfl
        exact decChar_bounds (by omega)

theorem digitStep_none (c : Char) : digitStep none c = none := by
  unfold digitStep
  cases charDigit? c <;> rfl

theorem foldl_digitStep_natToDigits (n : Nat) :
    ∀ a : Nat, (natToDigits n).foldl digitStep (some a) =
      some (a * 10 ^ (natToDigits n).length + n) := by
  induction n using Nat.strong_induction_on with
  | _ n ihn =>
    intro a
    by_cases h : n < 10
    · rw [natToDigits_eq, if_pos h]
      show digitStep (some a) (decChar n) = _
      unfold digitStep
      rw [charDigit?_decChar h]
      simp
    · have ih := ihn (n / 10) (by omega)
      rw [natToDigits_eq, if_neg h, List.foldl_append, ih a, List.foldl_cons,
        List.foldl_nil]
      unfold digitStep
      rw [charDigit?_decChar (by omega : n % 10 < 10)]
      show some ((a * 10 ^ (natToDigits (n / 10)).length + n / 10) * 10 + n % 10)
        = some (a * 10 ^ (natToDigits (n / 10) ++ [decChar (n % 10)]).length + n)
      congr 1
      have hlen : (natToDigits (n / 10) ++ [decChar (n % 10)]).length =
          (natToDigits (n / 10)).length + 1 := by simp
      rw [hlen, pow_succ]
      have hmod : n / 10 * 10 + n % 10 = n := by omega
      calc (a * 10 ^ (natToDigits (n / 10)).length + n / 10) * 10 + n % 10
          = a * (10 ^ (natToDigits (n / 10)).length * 10) +
              (n / 10 * 10 + n % 10) := by ring
        _ = a * (10 ^ (natToDigits (n / 10)).length * 10) + n := by rw [hmod]

theorem parseDigits_natToDigits (n : Nat) :
    parseDigits (natToDigits n) = some n := by
  unfold parseDigits
  rw [foldl_digitStep_natToDigits n 0]
  simp

theorem parseNat_natToDigits (n : Nat) : parseNat (natToDigits n) = some n := by
  unfold parseNat
  rw [if_neg (by simp [natToDigits_ne_nil n]), parseDigits_natToDigits]

theorem dropWhile_all_false {p : Char → Bool} {l : Str}
    (h : ∀ c ∈ l, p c = false) : l.dropWhile p = l := by
  cases l with
  | nil => rfl
  | cons c l => rw [List.dropWhile_cons, h c (by simp)]; simp

theorem pyStrip_no_space {s : Str} (h : ∀ c ∈ s, isSpaceChar c = false) :
    pyStrip s = s := by
  unfold pyStrip
  rw [dropWhile_all_false h,
    dropWhile_all_false (fun c hc => h c (List.mem_reverse.mp hc)),
    List.reverse_reverse]

theorem pyInt?_digits_cons (c : Char) (rest : Str)
    (hall : ∀ x ∈ c :: rest, '0' ≤ x ∧ x ≤ '9') :
    pyInt? (c :: rest) = (parseDigits (c :: rest)).map (fun n => (n : Int)) := by
  have hs : pyStrip (c :: rest) = c :: rest :=
    pyStrip_no_space (fun x hx => digit_not_space (hall x hx).1)
  have hc0 : '0' ≤ c := (hall c (by simp)).1
  unfold pyInt?
  rw [hs]
  simp only [if_neg (digit_ne_minus hc0), if_neg (digit_ne_plus hc0)]
  unfold parseNat
  rw [if_neg (by simp)]

theorem pyInt?_natToDigits (n : Nat) : pyInt? (natToDigits n) = some (n : Int) := by
  obtain ⟨c, rest, hcr⟩ : ∃ c rest, natToDigits n = c :: rest := by
    cases h : natToDigits n with
    | nil => exact absurd h (natToDigits_ne_nil n)
    | cons c rest => exact ⟨c, rest, rfl⟩
  rw [hcr, pyInt?_digits_cons c rest (fun x hx => natToDigits_bounds n x (hcr ▸ hx)),
    ← hcr, parseDigits_natToDigits]
  rfl

theorem pyInt?_intToStr (n : Int) : pyInt? (intToStr n) = some n := by
  unfold intToStr
  split
  · rename_i hneg
    have hds := natToDigits_bounds n.natAbs
    have hs : pyStrip ('-' :: natToDigits n.natAbs) = '-' :: natToDigits n.natAbs := by
      refine pyStrip_no_space ?_
      intro c hc
      rcases List.mem_cons.mp hc with rfl | hc
      · decide
      · exact digit_not_space (hds c hc).1
    unfold pyInt?
    rw [hs]
    simp only [if_pos rfl]
    rw [parseNat_natToDigits]
    have : ((n.natAbs : Nat) : Int) = -n := by omega
    simp [this]
  · rename_i hpos
    rw [pyInt?_natToDigits]
    have : ((n.natAbs : Nat) : Int) = n := by omega
    rw [this]

theorem parseDigits_zero_cons (s : Str) :
    parseDigits ('0' :: s) = parseDigits s := by
  unfold parseDigits
  rw [List.foldl_cons]
  have : digitStep (some 0) '0' = some 0 := by decide
  rw [this]

theorem pyInt?_fmt02 {n : Int} (h : 0 ≤ n) : pyInt? (fmt02 n) = some n := by
  unfold fmt02
  split
  · rename_i hlt
    have hds := natToDigits_bounds n.natAbs
    rw [pyInt?_digits_cons '0' (natToDigits n.natAbs)
        (fun x hx => by
          rcases List.mem_cons.mp hx with rfl | hx
          · exact ⟨by decide, by decide⟩
          · exact hds x hx),
      parseDigits_zero_cons, parseDigits_natToDigits]
    have : ((n.natAbs : Nat) : Int) = n := by omega
    simp [this]
  · exact pyInt?_intToStr n

theorem natToDigits_no_colon (n : Nat) : ':' ∉ natToDigits n := by
  intro hc
  exact absurd rfl (digit_ne_colon (natToDigits_bounds n ':' hc).2)

theorem intToStr_no_colon (n : Int) : ':' ∉ intToStr n := by
  unfold intToStr
  split
  · intro hc
    rcases List.mem_cons.mp hc with hc | hc
    · exact absurd hc (by decide)
    · exact natToDigits_no_colon _ hc
  · exact natToDigits_no_colon _

theorem fmt02_no_colon (n : Int) : ':' ∉ fmt02 n := by
  unfold fmt02
  split
  · intro hc
    rcases List.mem_cons.mp hc with hc | hc
    · exact absurd hc (by decide)
    · exact natToDigits_no_colon _ hc
  · exact intToStr_no_colon n

theorem splitColon_no_colon {s : Str} (h : ':' ∉ s) : splitColon s = [s] := by
  induction s with
  | nil => rfl
  | cons c rest ih =>
    have hc : ¬(c = ':') := fun hc => h (hc ▸ List.mem_cons_self c rest)
    rw [splitColon, if_neg hc, ih (fun hm => h (List.mem_cons_of_mem _ hm))]

theorem splitColon_append {x : Str} (hx : ':' ∉ x) (rest : Str) :
    splitColon (x ++ ':' :: rest) = x :: splitColon rest := by
  induction x with
  | nil => rw [List.nil_append, splitColon, if_pos rfl]
  | cons c x ih =>
    have hc : ¬(c = ':') := fun hc => hx (hc ▸ List.mem_cons_self c x)
    rw [List.cons_append, splitColon, if_neg hc,
      ih (fun hm => hx (List.mem_cons_of_mem _ hm))]

theorem time_str_to_seconds_of_parses {a b c : Str} {h m sec : Int}
    (hab : ':' ∉ a) (hbb : ':' ∉ b) (hcb : ':' ∉ c)
    (ha : pyInt? a = some h) (hb : pyInt? b = some m) (hc : pyInt? c = some sec) :
    time_str_to_seconds (Cell.str (a ++ ':' :: (b ++ ':' :: c))) =
      h * 3600 + m * 60 + sec := by
  simp only [time_str_to_seconds]
  rw [splitColon_append hab, splitColon_append hbb, splitColon_no_colon hcb]
  simp only [ha, hb, hc]

theorem fdiv_cast_3600 (m : Nat) : (m : Int).fdiv 3600 = ((m / 3600 : Nat) : Int) :=
  (Int.ofNat_fdiv m 3600).symm

theorem fmod_cast_3600 (m : Nat) : (m : Int).fmod 3600 = ((m % 3600 : Nat) : Int) :=
  (Int.ofNat_fmod m 3600).symm

theorem fdiv_cast_60 (m : Nat) : (m : Int).fdiv 60 = ((m / 60 : Nat) : Int) :=
  (Int.ofNat_fdiv m 60).symm

theorem fmod_cast_60 (m : Nat) : (m : Int).fmod 60 = ((m % 60 : Nat) : Int) :=
  (Int.ofNat_fmod m 60).symm

/-- C10: converting any non-negative whole number of seconds to an
`HH:MM:SS` string with `seconds_to_time_str` and parsing it back with
`time_str_to_seconds` returns the original second count. -/
theorem time_round_trip (s : Nat) :
    time_str_to_seconds (Cell.str (seconds_to_time_str (s : Int))) = (s : Int) := by
  unfold seconds_to_time_str
  rw [fdiv_cast_3600, fmod_cast_3600, fmod_cast_60, fdiv_cast_60,
    time_str_to_seconds_of_parses (fmt02_no_colon _) (fmt02_no_colon _)
      (fmt02_no_colon _) (pyInt?_fmt02 (Int.natCast_nonneg _))
      (pyInt?_fmt02 (Int.natCast_nonneg _)) (pyInt?_fmt02 (Int.natCast_nonneg _))]
  omega

/-! ### Forward-fill lemmas -/

theorem ffillFrom_idem (l : List Cell) :
    ∀ last, ffillFrom last (ffillFrom last l) = ffillFrom last l := by
  induction l with
  | nil => intro last; rfl
  | cons c rest ih =>
    intro last
    cases c with
    | null =>
      cases last with
      | none => simp only [ffillFrom, ih]
      | some v => simp only [ffillFrom, ih]
    | str s => simp only [ffillFrom, ih]

theorem ffillFrom_length (l : List Cell) :
    ∀ last, (ffillFrom last l).length = l.length := by
  induction l with
  | nil => intro last; rfl
  | cons c rest ih =>
    intro last
    cases c with
    | null => cases last <;> simp [ffillFrom, ih]
    | str s => simp [ffillFrom, ih]

theorem ffillFrom_some_not_null (l : List Cell) :
    ∀ v c, c ∈ ffillFrom (some v) l → c ≠ Cell.null := by
  induction l with
  | nil => intro v c hc; simp [ffillFrom] at hc
  | cons x rest ih =>
    intro v c hc
    cases x with
    | null =>
      rcases List.mem_cons.mp hc with rfl | hc
      · simp
      · exact ih v c hc
    | str s =>
      rcases List.mem_cons.mp hc with rfl | hc
      · simp
      · exact ih s c hc

/-! ### uniqueFirst lemmas -/

theorem mem_uniqueFirstAux (a : Str) : ∀ (l seen : List Str),
    a ∈ uniqueFirstAux seen l ↔ a ∈ l ∧ a ∉ seen := by
  intro l
  induction l with
  | nil => intro seen; simp [uniqueFirstAux]
  | cons x xs ih =>
    intro seen
    simp only [uniqueFirstAux]
    by_cases hx : x ∈ seen
    · rw [if_pos hx, ih]
      constructor
      · rintro ⟨ha, hs⟩
        exact ⟨List.mem_cons_of_mem _ ha, hs⟩
      · rintro ⟨ha, hs⟩
        rcases List.mem_cons.mp ha with rfl | ha
        · exact absurd hx hs
        · exact ⟨ha, hs⟩
    · rw [if_neg hx]
      constructor
      · intro h
        rcases List.mem_cons.mp h with rfl | h
        · exact ⟨List.mem_cons_self _ _, hx⟩
        · have hih := (ih _).mp h
          exact ⟨List.mem_cons_of_mem _ hih.1,
            fun hs => hih.2 (List.mem_cons_of_mem _ hs)⟩
      · rintro ⟨ha, hs⟩
        rcases List.mem_cons.mp ha with rfl | ha
        · exact List.mem_cons_self _ _
        · by_cases hax : a = x
          · subst hax; exact List.mem_cons_self _ _
          · refine List.mem_cons_of_mem _ ((ih _).mpr ⟨ha, ?_⟩)
            intro hmem
            rcases List.mem_cons.mp hmem with h' | h'
            · exact hax h'
            · exact hs h'

theorem mem_uniqueFirst (a : Str) (l : List Str) :
    a ∈ uniqueFirst l ↔ a ∈ l := by
  unfold uniqueFirst
  rw [mem_uniqueFirstAux]
  simp

theorem nodup_uniqueFirstAux : ∀ (l seen : List Str),
    (uniqueFirstAux seen l).Nodup := by
  intro l
  induction l with
  | nil => intro seen; simp [uniqueFirstAux]
  | cons x xs ih =>
    intro seen
    simp only [uniqueFirstAux]
    by_cases hx : x ∈ seen
    · rw [if_pos hx]; exact ih seen
    · rw [if_neg hx]
      refine List.nodup_cons.mpr ⟨?_, ih _⟩
      intro hmem
      exact ((mem_uniqueFirstAux _ _ _).mp hmem).2 (List.mem_cons_self _ _)

theorem nodup_uniqueFirst (l : List Str) : (uniqueFirst l).Nodup :=
  nodup_uniqueFirstAux l []

theorem head?_uniqueFirst (l : List Str) : (uniqueFirst l).head? = l.head? := by
  cases l with
  | nil => rfl
  | cons x xs =>
    simp only [uniqueFirst, uniqueFirstAux]
    rw [if_neg (List.not_mem_nil x)]
    rfl

/-! ### pySorted lemmas -/

theorem mem_pySorted (a : Str) (l : List Str) : a ∈ pySorted l ↔ a ∈ l :=
  (List.perm_insertionSort _ l).mem_iff

theorem sorted_pySorted (l : List Str) : List.Sorted (· ≤ ·) (pySorted l) :=
  List.sorted_insertionSort _ l

theorem nodup_pySorted {l : List Str} (h : l.Nodup) : (pySorted l).Nodup :=
  ((List.perm_insertionSort _ l).nodup_iff).mpr h

/-! ### dropNulls lemmas -/

theorem mem_dropNulls (a : Str) (l : List Cell) :
    a ∈ dropNulls l ↔ Cell.str a ∈ l := by
  unfold dropNulls
  rw [List.mem_filterMap]
  constructor
  · rintro ⟨c, hc, hm⟩
    cases c with
    | null => simp [cellStr?] at hm
    | str s =>
      simp only [cellStr?, Option.some.injEq] at hm
      subst hm; exact hc
  · intro h
    exact ⟨Cell.str a, h, rfl⟩

theorem findIdx?_start_none {p : Str → Bool} : ∀ l : List Str,
    (∀ c ∈ l, p c = false) → ∀ i, List.findIdx? p l i = none := by
  intro l
  induction l with
  | nil => intro h i; rfl
  | cons c rest ih =>
    intro h i
    simp only [List.findIdx?, h c (by simp), Bool.false_eq_true, if_false]
    exact ih (fun x hx => h x (List.mem_cons_of_mem _ hx)) (i + 1)

theorem findIdx?_eq_none_of_all {p : Str → Bool} {l : List Str}
    (h : ∀ c ∈ l, p c = false) : l.findIdx? p = none :=
  findIdx?_start_none l h 0

theorem colIdx?_eq_none {df : DataFrame} {name : Str}
    (h : name ∉ df.cols) : colIdx? df name = none := by
  unfold colIdx?
  refine findIdx?_eq_none_of_all ?_
  intro c hc
  by_cases hcn : c = name
  · subst hcn; exact absurd hc h
  · simp [hcn]

/-! ### Lemmas about cleaned code strings -/

theorem digit_ne_comma {c : Char} (h1 : '0' ≤ c) : c ≠ ',' := by
  intro hc; subst hc; exact absurd h1 (by decide)

theorem digit_ne_dot {c : Char} (h1 : '0' ≤ c) : c ≠ '.' := by
  intro hc; subst hc; exact absurd h1 (by decide)

theorem intToStr_no_comma (n : Int) : ',' ∉ intToStr n := by
  unfold intToStr
  split
  · intro hc
    rcases List.mem_cons.mp hc with hc | hc
    · exact absurd hc (by decide)
    · exact absurd rfl (digit_ne_comma (natToDigits_bounds _ ',' hc).1)
  · intro hc
    exact absurd rfl (digit_ne_comma (natToDigits_bounds _ ',' hc).1)

theorem intToStr_no_dot (n : Int) : '.' ∉ intToStr n := by
  unfold intToStr
  split
  · intro hc
    rcases List.mem_cons.mp hc with hc | hc
    · exact absurd hc (by decide)
    · exact absurd rfl (digit_ne_dot (natToDigits_bounds _ '.' hc).1)
  · intro hc
    exact absurd rfl (digit_ne_dot (natToDigits_bounds _ '.' hc).1)

theorem natToDigits_zero_cons : ∀ n rest, natToDigits n = '0' :: rest →
    n = 0 ∧ rest = [] := by
  intro n
  induction n using Nat.strong_induction_on with
  | _ n ih =>
    intro rest hr
    rw [natToDigits_eq] at hr
    by_cases h : n < 10
    · rw [if_pos h] at hr
      have hc : decChar n = '0' := (List.cons.inj hr).1
      have hrest : rest = [] := ((List.cons.inj hr).2).symm
      refine ⟨?_, hrest⟩
      interval_cases n <;> first | rfl | exact absurd hc (by decide)
    · rw [if_neg h] at hr
      cases hl : natToDigits (n / 10) with
      | nil => exact absurd hl (natToDigits_ne_nil _)
      | cons c cs =>
        rw [hl, List.cons_append] at hr
        have hc0 : c = '0' := (List.cons.inj hr).1
        have := ih (n / 10) (by omega) cs (by rw [hl, hc0])
        omega

theorem clean_equipment_code_eq_none_iff (c : Cell) :
    clean_equipment_code c = none ↔ c = Cell.null := by
  cases c with
  | null => simp [clean_equipment_code]
  | str s =>
    simp only [clean_equipment_code]
    cases pyInt? (pyStrip (s.filter (· ≠ ','))) <;> simp

theorem cleanCell_null_iff (c : Cell) :
    cleanCell c = Cell.null ↔ c = Cell.null := by
  unfold cleanCell
  cases hc : clean_equipment_code c with
  | none => simpa using (clean_equipment_code_eq_none_iff c).mp hc
  | some s =>
    simp only []
    constructor
    · intro h; exact absurd h (by simp)
    · intro h
      subst h
      simp [clean_equipment_code] at hc

theorem cleanCell_str (s : Str) : ∃ t, cleanCell (Cell.str s) = Cell.str t := by
  simp only [cleanCell, clean_equipment_code]
  cases pyInt? (pyStrip (s.filter (· ≠ ','))) with
  | none => exact ⟨pyStrip s, rfl⟩
  | some n => exact ⟨intToStr n, rfl⟩

theorem normalize_codes_nonnull_iff : ∀ (col : List Cell) (i : Nat),
    i < col.length →
    ((normalize_codes col).getD i Cell.null ≠ Cell.null ↔
      ∃ j, j ≤ i ∧ col.getD j Cell.null ≠ Cell.null) := by
  intro col
  induction col with
  | nil => intro i hi; simp at hi
  | cons c cs ih =>
    intro i hi
    cases c with
    | null =>
      have hnorm : normalize_codes (Cell.null :: cs) =
          Cell.null :: normalize_codes cs := by
        unfold normalize_codes ffill
        rw [List.map_cons]
        have hcn : cleanCell Cell.null = Cell.null := rfl
        rw [hcn]
        rfl
      rw [hnorm]
      cases i with
      | zero =>
        refine iff_of_false (fun h => h (List.getD_cons_zero)) ?_
        rintro ⟨j, hj, hne⟩
        have hj0 : j = 0 := by omega
        subst hj0
        rw [List.getD_cons_zero] at hne
        exact hne rfl
      | succ n =>
        rw [List.getD_cons_succ,
          ih n (by simp only [List.length_cons] at hi; omega)]
        constructor
        · rintro ⟨j, hj, hne⟩
          exact ⟨j + 1, by omega, by rwa [List.getD_cons_succ]⟩
        · rintro ⟨j, hj, hne⟩
          cases j with
          | zero => rw [List.getD_cons_zero] at hne; exact absurd rfl hne
          | succ j' =>
            rw [List.getD_cons_succ] at hne
            exact ⟨j', by omega, hne⟩
    | str s =>
      obtain ⟨t, ht⟩ := cleanCell_str s
      have hnorm : normalize_codes (Cell.str s :: cs) =
          Cell.str t :: ffillFrom (some t) (cs.map cleanCell) := by
        unfold normalize_codes ffill
        rw [List.map_cons, ht]
        rfl
      rw [hnorm]
      cases i with
      | zero =>
        refine iff_of_true ?_ ⟨0, Nat.le_refl 0, ?_⟩ <;>
          (rw [List.getD_cons_zero]; simp)
      | succ n =>
        refine iff_of_true ?_ ⟨0, by omega, by rw [List.getD_cons_zero]; simp⟩
        rw [List.getD_cons_succ]
        have hn : n < (ffillFrom (some t) (cs.map cleanCell)).length := by
          rw [ffillFrom_length, List.length_map]
          simp only [List.length_cons] at hi
          omega
        rw [List.getD_eq_getElem _ _ hn]
        exact ffillFrom_some_not_null _ t _ (List.getElem_mem hn)

/-! ### Sample frames for concrete instantiations -/

/-- A small sample sheet: two rows for code `7` (module `Door`), one row
for code `8` (module `Step`). -/
def sampleDF : DataFrame :=
  ⟨[equipmentCodeCol, typeCol, moduleCol, componentsCol,
    "Total time".data, "No of man power".data],
   [[Cell.str "7".data, Cell.str "Elevator".data, Cell.str "Door".data,
     Cell.str "Sensor".data, Cell.str "01:30:00".data, Cell.str "2".data],
    [Cell.str "7".data, Cell.null, Cell.str "Door".data,
     Cell.str "Motor".data, Cell.str "00:30:00".data, Cell.str "x".data],
    [Cell.str "8".data, Cell.str "Escalator".data, Cell.str "Step".data,
     Cell.str "Chain".data, Cell.null, Cell.null]]⟩

/-- A sample sheet whose single equipment code carries two distinct
types, exercising the first-encountered tie-break. -/
def tieDF : DataFrame :=
  ⟨[equipmentCodeCol, typeCol],
   [[Cell.str "7".data, Cell.str "A".data],
    [Cell.str "7".data, Cell.str "B".data]]⟩

/-- A sheet with only the `Equipment Code` column, exercising the
missing-optional-column paths. -/
def bareDF : DataFrame :=
  ⟨[equipmentCodeCol], [[Cell.str "7".data]]⟩

/-! ### Claim theorems -/

/-- C7: forward-fill is idempotent, and it is order-sensitive: the two
displayed inputs are permutations of each other yet forward-fill maps
them to different outputs (a leading null stays null, a trailing null is
filled). -/
theorem ffill_idem_and_order_sensitive :
    (∀ l : List Cell, ffill (ffill l) = ffill l) ∧
    List.Perm [Cell.str ['a'], Cell.null] [Cell.null, Cell.str ['a']] ∧
    ffill [Cell.str ['a'], Cell.null] = [Cell.str ['a'], Cell.str ['a']] ∧
    ffill [Cell.null, Cell.str ['a']] = [Cell.null, Cell.str ['a']] ∧
    ffill [Cell.null, Cell.str ['a']] ≠ ffill [Cell.str ['a'], Cell.null] :=
  ⟨fun l => ffillFrom_idem l none, by decide, by decide, by decide, by decide⟩

/-- Witness for C7: the idempotence part applied at a concrete column. -/
theorem ffill_idem_and_order_sensitive_witness :
    ffill (ffill [Cell.null, Cell.str ['a'], Cell.null]) =
      ffill [Cell.null, Cell.str ['a'], Cell.null] :=
  ffill_idem_and_order_sensitive.1 [Cell.null, Cell.str ['a'], Cell.null]

/-- C8 as stated fails: a table whose first rows have null raw equipment
codes keeps those nulls, since forward-fill has nothing above them to
propagate. -/
theorem normalize_codes_counterexample :
    normalize_codes [Cell.null, Cell.str "7".data] =
      [Cell.null, Cell.str "7".data] ∧
    Cell.null ∈ normalize_codes [Cell.null, Cell.str "7".data] := by
  constructor <;> decide

/-- C8 amended: after cleaning and forward-fill, a row's equipment code
is non-null exactly when some row at or before it had a non-null raw
code; in particular rows before the first non-null raw code keep a null
code, and every non-null raw value (parseable or not) yields a non-null
code. -/
theorem normalize_codes_nonnull_characterization (col : List Cell) (i : Nat)
    (hi : i < col.length) :
    ((normalize_codes col).getD i Cell.null ≠ Cell.null ↔
      ∃ j, j ≤ i ∧ col.getD j Cell.null ≠ Cell.null) ∧
    (∀ c : Cell, c ≠ Cell.null → clean_equipment_code c ≠ none) := by
  refine ⟨normalize_codes_nonnull_iff col i hi, ?_⟩
  intro c hc hnone
  exact hc ((clean_equipment_code_eq_none_iff c).mp hnone)

/-- Witness for C8 amended: the second position of `[null, "7"]` is
non-null after normalization. -/
theorem normalize_codes_nonnull_characterization_witness :
    (normalize_codes [Cell.null, Cell.str "7".data]).getD 1 Cell.null ≠
      Cell.null :=
  (normalize_codes_nonnull_characterization
    [Cell.null, Cell.str "7".data] 1 (by decide)).1.mpr
      ⟨1, Nat.le_refl 1, by decide⟩

/-- C2 as stated fails: when the comma-stripped string does not parse as
an integer, the source keeps the original string stripped of whitespace
only, so thousands separators can survive into the cleaned code. -/
theorem clean_equipment_code_counterexample :
    clean_equipment_code (Cell.str "A,B".data) = some "A,B".data ∧
    ',' ∈ "A,B".data := by
  constructor <;> decide

/-- C2 amended: null maps to null; if the comma-stripped
whitespace-trimmed string parses as an integer the result is its
canonical base-10 form (no commas, no decimal point, no leading zeros,
and it parses back to the same integer); otherwise the result is the
original string with surrounding whitespace stripped and commas
retained. -/
theorem clean_equipment_code_spec :
    clean_equipment_code Cell.null = none ∧
    (∀ s n, pyInt? (pyStrip (s.filter (· ≠ ','))) = some n →
      clean_equipment_code (Cell.str s) = some (intToStr n) ∧
      ',' ∉ intToStr n ∧ '.' ∉ intToStr n ∧
      (∀ rest, intToStr n = '0' :: rest → n = 0 ∧ rest = []) ∧
      pyInt? (intToStr n) = some n) ∧
    (∀ s, pyInt? (pyStrip (s.filter (· ≠ ','))) = none →
      clean_equipment_code (Cell.str s) = some (pyStrip s)) := by
  refine ⟨rfl, ?_, ?_⟩
  · intro s n hpar
    refine ⟨?_, intToStr_no_comma n, intToStr_no_dot n, ?_, pyInt?_intToStr n⟩
    · simp only [clean_equipment_code, hpar]
    · intro rest hr
      unfold intToStr at hr
      split at hr
      · exact absurd (List.cons.inj hr).1 (by decide)
      · rename_i hnn
        obtain ⟨h0, hrest⟩ := natToDigits_zero_cons n.natAbs rest hr
        exact ⟨by omega, hrest⟩
  · intro s hpar
    simp only [clean_equipment_code, hpar]

/-- Witness for C2 amended: the documented examples, a comma-grouped
number and a zero-padded one. -/
theorem clean_equipment_code_spec_witness :
    clean_equipment_code (Cell.str "43,397,068".data) =
      some (intToStr 43397068) ∧
    clean_equipment_code (Cell.str "007".data) = some (intToStr 7) :=
  ⟨(clean_equipment_code_spec.2.1 "43,397,068".data 43397068 (by decide)).1,
   (clean_equipment_code_spec.2.1 "007".data 7 (by decide)).1⟩

/-- C3 as stated fails: a negative component is not treated as zero --
`"0:0:-60"` parses to `-60` seconds because Python `int` accepts signed
parts. -/
theorem time_str_to_seconds_counterexample :
    time_str_to_seconds (Cell.str "0:0:-60".data) = -60 ∧ (-60 : Int) ≠ 0 := by
  constructor <;> decide

/-- C3 amended: duration parsing returns `h*3600 + m*60 + s` for any
string with exactly three colon-separated integer-parseable parts --
including negative or out-of-range parts, which are combined
arithmetically rather than rejected -- and returns zero, never failing,
for null and for every other string; `total_time` is the sum of these
per-row values over the first column whose lowercased name contains
`total` and `time`. -/
theorem time_str_to_seconds_spec :
    time_str_to_seconds Cell.null = 0 ∧
    (∀ h m sec : Int, time_str_to_seconds (Cell.str
        (intToStr h ++ ':' :: (intToStr m ++ ':' :: intToStr sec))) =
      h * 3600 + m * 60 + sec) ∧
    (∀ s : Str, time_str_to_seconds (Cell.str s) = 0 ∨
      ∃ a b c hh mm ss, splitColon s = [a, b, c] ∧ pyInt? a = some hh ∧
        pyInt? b = some mm ∧ pyInt? c = some ss ∧
        time_str_to_seconds (Cell.str s) = hh * 3600 + mm * 60 + ss) ∧
    (∀ df : DataFrame, ∀ i, df.rows.isEmpty = false →
      df.cols.findIdx? isTotalTimeName = some i →
      (calculate_stats (some df)).total_time =
        ((df.rows.map (rowCell · i)).map time_str_to_seconds).sum) := by
  refine ⟨rfl, ?_, ?_, ?_⟩
  · intro h m sec
    exact time_str_to_seconds_of_parses (intToStr_no_colon h)
      (intToStr_no_colon m) (intToStr_no_colon sec) (pyInt?_intToStr h)
      (pyInt?_intToStr m) (pyInt?_intToStr sec)
  · intro s
    rcases hs : splitColon s with _ | ⟨a, _ | ⟨b, _ | ⟨c, _ | ⟨d, tail⟩⟩⟩⟩
    · left; simp [time_str_to_seconds, hs]
    · left; simp [time_str_to_seconds, hs]
    · left; simp [time_str_to_seconds, hs]
    · cases ha : pyInt? a with
      | none => left; simp [time_str_to_seconds, hs, ha]
      | some hh =>
        cases hb : pyInt? b with
        | none => left; simp [time_str_to_seconds, hs, ha, hb]
        | some mm =>
          cases hc : pyInt? c with
          | none => left; simp [time_str_to_seconds, hs, ha, hb, hc]
          | some ss =>
            right
            exact ⟨a, b, c, hh, mm, ss, rfl, ha, hb, hc,
              by simp [time_str_to_seconds, hs, ha, hb, hc]⟩
    · left; simp [time_str_to_seconds, hs]
  · intro df i hemp hidx
    simp only [calculate_stats, hemp, Bool.false_eq_true, if_false, hidx]

/-- Witness for C3 amended: the total-time sum at the sample sheet. -/
theorem time_str_to_seconds_spec_witness :
    (calculate_stats (some sampleDF)).total_time =
      ((sampleDF.rows.map (rowCell · 4)).map time_str_to_seconds).sum :=
  time_str_to_seconds_spec.2.2.2 sampleDF 4 (by decide) (by decide)

/-- C4: the aggregator returns all-zero statistics for a missing or
empty frame, and `avg_manpower` is the mean of the numeric-parseable
manpower values -- ignoring non-numeric and missing entries -- and zero
(not NaN, not an error) when no numeric value exists. -/
theorem calculate_stats_spec :
    calculate_stats none = ⟨0, 0, 0⟩ ∧
    (∀ cols, calculate_stats (some ⟨cols, []⟩) = ⟨0, 0, 0⟩) ∧
    (∀ df : DataFrame, ∀ i, df.rows.isEmpty = false →
      df.cols.findIdx? isManpowerName = some i →
      (calculate_stats (some df)).avg_manpower =
        (if ((df.rows.map (rowCell · i)).filterMap pyNumeric?).length = 0
         then (0 : ℚ)
         else ((df.rows.map (rowCell · i)).filterMap pyNumeric?).sum /
           (((df.rows.map (rowCell · i)).filterMap pyNumeric?).length : ℚ))) := by
  refine ⟨rfl, fun cols => rfl, ?_⟩
  intro df i hemp hidx
  simp only [calculate_stats, hemp, Bool.false_eq_true, if_false, hidx,
    gt_iff_lt]
  by_cases hv : ((df.rows.map (rowCell · i)).filterMap pyNumeric?).length = 0
  · rw [if_neg (by omega), if_pos hv]
  · rw [if_pos (by omega), if_neg hv]

/-- Witness for C4: the sample sheet has one parseable manpower value
(`"2"`; `"x"` and a null are ignored). -/
theorem calculate_stats_spec_witness :
    (calculate_stats (some sampleDF)).avg_manpower =
      (if ((sampleDF.rows.map (rowCell · 5)).filterMap pyNumeric?).length = 0
       then (0 : ℚ)
       else ((sampleDF.rows.map (rowCell · 5)).filterMap pyNumeric?).sum /
         (((sampleDF.rows.map (rowCell · 5)).filterMap pyNumeric?).length : ℚ)) :=
  calculate_stats_spec.2.2 sampleDF 5 (by decide) (by decide)

/-- C6: `get_type_for_equipment` returns the first non-null `Type`
value in table row order among the rows matching the code (`head?` of
the non-null type cells), and null when no matching row has a non-null
type; with several distinct types the first encountered wins. -/
theorem get_type_first_nonnull (df : DataFrame) (code : Str) (i j : Nat)
    (hi : colIdx? df equipmentCodeCol = some i)
    (hj : colIdx? df typeCol = some j) :
    get_type_for_equipment (some df) (some code) =
      (dropNulls ((df.rows.filter (fun r =>
        cellMatch (rowCell r i) (some code))).map (rowCell · j))).head? := by
  simp only [get_type_for_equipment, hi, hj]
  rw [head?_uniqueFirst]

/-- Witness for C6: with two distinct types `A` then `B` for one code,
the first in row order is returned. -/
theorem get_type_first_nonnull_witness :
    get_type_for_equipment (some tieDF) (some "7".data) = some "A".data :=
  (get_type_first_nonnull tieDF "7".data 0 1 (by decide) (by decide)).trans
    (by decide)

/-- C9: with optional columns absent, the resolver operations return
null or empty results and the aggregator returns zero statistics for
the missing dimensions -- none of them fails. -/
theorem missing_columns_graceful (df : DataFrame) (code module : Str) :
    (typeCol ∉ df.cols → get_type_for_equipment (some df) (some code) = none) ∧
    (moduleCol ∉ df.cols → get_modules (some df) (some code) = []) ∧
    (componentsCol ∉ df.cols →
      get_components (some df) (some code) (some module) = []) ∧
    (equipmentCodeCol ∉ df.cols → get_equipment_codes (some df) = []) ∧
    ((∀ c ∈ df.cols, isTotalTimeName c = false) →
      (calculate_stats (some df)).total_time = 0) ∧
    ((∀ c ∈ df.cols, isManpowerName c = false) →
      (calculate_stats (some df)).avg_manpower = 0) := by
  refine ⟨?_, ?_, ?_, ?_, ?_, ?_⟩
  · intro h
    have h2 := colIdx?_eq_none h
    cases h1 : colIdx? df equipmentCodeCol <;>
      simp [get_type_for_equipment, h1, h2]
  · intro h
    have h2 := colIdx?_eq_none h
    cases h1 : colIdx? df equipmentCodeCol <;>
      simp [get_modules, h1, h2]
  · intro h
    have h3 := colIdx?_eq_none h
    cases h1 : colIdx? df equipmentCodeCol <;>
      cases h2 : colIdx? df moduleCol <;>
      simp [get_components, h1, h2, h3]
  · intro h
    simp [get_equipment_codes, colIdx?_eq_none h]
  · intro h
    have hidx : df.cols.findIdx? isTotalTimeName = none :=
      findIdx?_eq_none_of_all h
    cases hemp : df.rows.isEmpty <;> simp [calculate_stats, hemp, hidx]
  · intro h
    have hidx : df.cols.findIdx? isManpowerName = none :=
      findIdx?_eq_none_of_all h
    cases hemp : df.rows.isEmpty <;> simp [calculate_stats, hemp, hidx]

/-- Witness for C9: the sheet with only an `Equipment Code` column. -/
theorem missing_columns_graceful_witness :
    get_type_for_equipment (some bareDF) (some "7".data) = none ∧
    get_modules (some bareDF) (some "7".data) = [] ∧
    get_components (some bareDF) (some "7".data) (some "Door".data) = [] ∧
    (calculate_stats (some bareDF)).total_time = 0 ∧
    (calculate_stats (some bareDF)).avg_manpower = 0 :=
  ⟨(missing_columns_graceful bareDF "7".data "Door".data).1 (by decide),
   (missing_columns_graceful bareDF "7".data "Door".data).2.1 (by decide),
   (missing_columns_graceful bareDF "7".data "Door".data).2.2.1 (by decide),
   (missing_columns_graceful bareDF "7".data "Door".data).2.2.2.2.1 (by decide),
   (missing_columns_graceful bareDF "7".data "Door".data).2.2.2.2.2 (by decide)⟩

/-- C1: `filter_data` returns exactly the rows of the original table,
kept in original row order (a single pass of `List.filter`), that match
the selected code and module; with an empty component list all such rows
are returned, with a non-empty list only those whose component is in the
list. -/
theorem filter_data_resolve (df : DataFrame) (code module : Str)
    (comps : List Str) (i j : Nat)
    (hi : colIdx? df equipmentCodeCol = some i)
    (hj : colIdx? df moduleCol = some j) :
    (comps = [] →
      filter_data (some df) (some code) (some module) comps =
        some ⟨df.cols, df.rows.filter (fun r =>
          cellMatch (rowCell r i) (some code) &&
          cellMatch (rowCell r j) (some module))⟩) ∧
    (∀ k, colIdx? df componentsCol = some k → comps ≠ [] →
      filter_data (some df) (some code) (some module) comps =
        some ⟨df.cols, df.rows.filter (fun r =>
          cellMatch (rowCell r i) (some code) &&
          cellMatch (rowCell r j) (some module) &&
          cellIn (rowCell r k) comps)⟩) := by
  constructor
  · intro hcomps
    subst hcomps
    simp only [filter_data, hi, hj, List.isEmpty_nil, if_true]
    rw [List.filter_filter]
    refine congrArg some (congrArg (DataFrame.mk df.cols) ?_)
    refine List.filter_congr ?_
    intro a _
    rw [Bool.and_comm]
  · intro k hk hne
    have hbe : ¬(comps.isEmpty = true) := by
      simpa [List.isEmpty_iff] using hne
    simp only [filter_data, hi, hj, hk, if_neg hbe]
    rw [List.filter_filter, List.filter_filter]
    refine congrArg some (congrArg (DataFrame.mk df.cols) ?_)
    refine List.filter_congr ?_
    intro a _
    simp only [Bool.and_comm, Bool.and_assoc, Bool.and_left_comm]

/-- Witness for C1 at the sample sheet, for an empty and a non-empty
component selection. -/
theorem filter_data_resolve_witness :
    filter_data (some sampleDF) (some "7".data) (some "Door".data) [] =
      some ⟨sampleDF.cols, sampleDF.rows.filter (fun r =>
        cellMatch (rowCell r 0) (some "7".data) &&
        cellMatch (rowCell r 2) (some "Door".data))⟩ ∧
    filter_data (some sampleDF) (some "7".data) (some "Door".data)
        ["Sensor".data] =
      some ⟨sampleDF.cols, sampleDF.rows.filter (fun r =>
        cellMatch (rowCell r 0) (some "7".data) &&
        cellMatch (rowCell r 2) (some "Door".data) &&
        cellIn (rowCell r 3) ["Sensor".data])⟩ :=
  ⟨(filter_data_resolve sampleDF "7".data "Door".data [] 0 2
      (by decide) (by decide)).1 rfl,
   (filter_data_resolve sampleDF "7".data "Door".data ["Sensor".data] 0 2
      (by decide) (by decide)).2 3 (by decide) (by decide)⟩

/-- C5: the three listing operations return sorted (ascending
lexicographic on strings), duplicate-free lists; `get_equipment_codes`
returns exactly the non-null codes of the table, and `get_modules` /
`get_components` return only values present among the rows of the
requested code (resp. code-and-module) scope. -/
theorem listings_spec (df : DataFrame) (code module : Str) :
    (List.Sorted (· ≤ ·) (get_equipment_codes (some df)) ∧
     (get_equipment_codes (some df)).Nodup ∧
     (∀ x, x ∈ get_equipment_codes (some df) ↔
       ∃ i, colIdx? df equipmentCodeCol = some i ∧
         Cell.str x ∈ df.rows.map (rowCell · i))) ∧
    (List.Sorted (· ≤ ·) (get_modules (some df) (some code)) ∧
     (get_modules (some df) (some code)).Nodup ∧
     (∀ x ∈ get_modules (some df) (some code), ∃ i j r,
       colIdx? df equipmentCodeCol = some i ∧ colIdx? df moduleCol = some j ∧
       r ∈ df.rows ∧ cellMatch (rowCell r i) (some code) = true ∧
       rowCell r j = Cell.str x)) ∧
    (List.Sorted (· ≤ ·) (get_components (some df) (some code) (some module)) ∧
     (get_components (some df) (some code) (some module)).Nodup ∧
     (∀ x ∈ get_components (some df) (some code) (some module), ∃ i j k r,
       colIdx? df equipmentCodeCol = some i ∧ colIdx? df moduleCol = some j ∧
       colIdx? df componentsCol = some k ∧ r ∈ df.rows ∧
       cellMatch (rowCell r i) (some code) = true ∧
       cellMatch (rowCell r j) (some module) = true ∧
       rowCell r k = Cell.str x)) := by
  refine ⟨⟨?_, ?_, ?_⟩, ⟨?_, ?_, ?_⟩, ⟨?_, ?_, ?_⟩⟩
  · cases h1 : colIdx? df equipmentCodeCol with
    | none => simp only [get_equipment_codes, h1]; exact List.sorted_nil
    | some i => simp only [get_equipment_codes, h1]; exact sorted_pySorted _
  · cases h1 : colIdx? df equipmentCodeCol with
    | none => simp only [get_equipment_codes, h1]; exact List.nodup_nil
    | some i =>
      simp only [get_equipment_codes, h1]
      exact nodup_pySorted (nodup_uniqueFirst _)
  · intro x
    cases h1 : colIdx? df equipmentCodeCol with
    | none =>
      simp only [get_equipment_codes, h1]
      constructor
      · intro hx; exact absurd hx (List.not_mem_nil x)
      · rintro ⟨i, hi, -⟩; exact Option.noConfusion hi
    | some i =>
      simp only [get_equipment_codes, h1]
      rw [mem_pySorted, mem_uniqueFirst, mem_dropNulls]
      constructor
      · intro hx; exact ⟨i, rfl, hx⟩
      · rintro ⟨i2, hi2, hx⟩
        obtain rfl : i = i2 := Option.some.inj hi2
        exact hx
  · rcases h1 : colIdx? df equipmentCodeCol with - | i <;>
      rcases h2 : colIdx? df moduleCol with - | j <;>
      simp only [get_modules, h1, h2] <;>
      first
        | exact List.sorted_nil
        | exact sorted_pySorted _
  · rcases h1 : colIdx? df equipmentCodeCol with - | i <;>
      rcases h2 : colIdx? df moduleCol with - | j <;>
      simp only [get_modules, h1, h2] <;>
      first
        | exact List.nodup_nil
        | exact nodup_pySorted (nodup_uniqueFirst _)
  · intro x hx
    rcases h1 : colIdx? df equipmentCodeCol with - | i
    · rw [show get_modules (some df) (some code) = [] by
        simp only [get_modules, h1]] at hx
      exact absurd hx (List.not_mem_nil x)
    · rcases h2 : colIdx? df moduleCol with - | j
      · rw [show get_modules (some df) (some code) = [] by
          simp only [get_modules, h1, h2]] at hx
        exact absurd hx (List.not_mem_nil x)
      · rw [show get_modules (some df) (some code) =
            pySorted (uniqueFirst (dropNulls
              ((df.rows.filter (fun r =>
                cellMatch (rowCell r i) (some code))).map (rowCell · j)))) by
          simp only [get_modules, h1, h2]] at hx
        rw [mem_pySorted, mem_uniqueFirst, mem_dropNulls, List.mem_map] at hx
        obtain ⟨r, hr, hcell⟩ := hx
        rw [List.mem_filter] at hr
        exact ⟨i, j, r, rfl, rfl, hr.1, hr.2, hcell⟩
  · rcases h1 : colIdx? df equipmentCodeCol with - | i <;>
      rcases h2 : colIdx? df moduleCol with - | j <;>
      rcases h3 : colIdx? df componentsCol with - | k <;>
      simp only [get_components, h1, h2, h3] <;>
      first
        | exact List.sorted_nil
        | exact sorted_pySorted _
  · rcases h1 : colIdx? df equipmentCodeCol with - | i <;>
      rcases h2 : colIdx? df moduleCol with - | j <;>
      rcases h3 : colIdx? df componentsCol with - | k <;>
      simp only [get_components, h1, h2, h3] <;>
      first
        | exact List.nodup_nil
        | exact nodup_pySorted (nodup_uniqueFirst _)
  · intro x hx
    rcases h1 : colIdx? df equipmentCodeCol with - | i
    · rw [show get_components (some df) (some code) (some module) = [] by
        simp only [get_components, h1]] at hx
      exact absurd hx (List.not_mem_nil x)
    · rcases h2 : colIdx? df moduleCol with - | j
      · rw [show get_components (some df) (some code) (some module) = [] by
          simp only [get_components, h1, h2]] at hx
        exact absurd hx (List.not_mem_nil x)
      · rcases h3 : colIdx? df componentsCol with - | k
        · rw [show get_components (some df) (some code) (some module) = [] by
            simp only [get_components, h1, h2, h3]] at hx
          exact absurd hx (List.not_mem_nil x)
        · rw [show get_components (some df) (some code) (some module) =
              pySorted (uniqueFirst (dropNulls
                ((df.rows.filter (fun r =>
                  cellMatch (rowCell r i) (some code) &&
                  cellMatch (rowCell r j) (some module))).map
                  (rowCell · k)))) by
            simp only [get_components, h1, h2, h3]] at hx
          rw [mem_pySorted, mem_uniqueFirst, mem_dropNulls,
            List.mem_map] at hx
          obtain ⟨r, hr, hcell⟩ := hx
          rw [List.mem_filter] at hr
          obtain ⟨hrr, hb⟩ := hr
          rw [Bool.and_eq_true] at hb
          exact ⟨i, j, k, r, rfl, rfl, rfl, hrr, hb.1, hb.2, hcell⟩

/-- Witness for C5: module `Door` appears for code `7` in the sample
sheet, and the theorem produces its supporting row. -/
theorem listings_spec_witness :
    ∃ i j r, colIdx? sampleDF equipmentCodeCol = some i ∧
      colIdx? sampleDF moduleCol = some j ∧ r ∈ sampleDF.rows ∧
      cellMatch (rowCell r i) (some "7".data) = true ∧
      rowCell r j = Cell.str "Door".data :=
  (listings_spec sampleDF "7".data "Door".data).2.1.2.2 "Door".data
    (by decide)

end Dashboard
